import Mathlib

/-!
Verification of the Netflow repository's two Objective-C bridging headers,
`FlixorMac-Bridging-Header.h` (macOS) and `FlixorTV-Bridging-Header.h` (tvOS).

The files consist of preprocessor directives only, so the embedding models
the relevant fragment of the C/Objective-C preprocessor: each physical line
is classified as a comment, a blank line, an `#ifndef` / `#define` / `#endif`
directive, an `#import` directive, or other content, and a small operational
semantics tracks the translation-unit state (defined macros, headers made
visible, declarations contributed) while processing a file's lines.
-/

namespace Netflow

/-- A classified physical line of a header file. -/
inductive Line where
  | commentL (s : String)
  | blankL
  | ifndefD (m : String)
  | defineD (m : String)
  | importD (h : String)
  | endifD (s : String)
  | otherL (s : String)
  deriving DecidableEq

/-- Horizontal whitespace, as the preprocessor's line lexer treats it. -/
def isHSpace (c : Char) : Bool :=
  c = ' ' || c = '\t' || c = '\r'

/-- Strip leading and trailing horizontal whitespace from a line's characters. -/
def trimChars (cs : List Char) : List Char :=
  ((cs.dropWhile isHSpace).reverse.dropWhile isHSpace).reverse

/-- Classify one physical line of a C-family header, following the
preprocessor's line grammar for the directives that occur in the sources. -/
def parseLine (s : String) : Line :=
  let t := trimChars s.data
  if t = [] then .blankL
  else if List.isPrefixOf "//".data t then .commentL (String.mk t)
  else if List.isPrefixOf "#ifndef ".data t then
    .ifndefD (String.mk (trimChars (t.drop 8)))
  else if List.isPrefixOf "#define ".data t then
    .defineD (String.mk (trimChars (t.drop 8)))
  else if List.isPrefixOf "#import ".data t then
    .importD (String.mk (trimChars (t.drop 8)))
  else if List.isPrefixOf "#endif".data t then .endifD (String.mk t)
  else .otherL (String.mk t)

/-- The exact text of `src/apps/macos/FlixorMac/FlixorMac-Bridging-Header.h`,
line by line. -/
def flixorMacText : List String := [
  "//",
  "//  FlixorMac-Bridging-Header.h",
  "//  FlixorMac",
  "//",
  "//  Bridging header for MPV integration",
  "//",
  "",
  "#ifndef FlixorMac_Bridging_Header_h",
  "#define FlixorMac_Bridging_Header_h",
  "",
  "// MPV Headers",
  "#import <mpv/client.h>",
  "#import <mpv/render.h>",
  "#import <mpv/render_gl.h>",
  "#import <mpv/stream_cb.h>",
  "",
  "#endif /* FlixorMac_Bridging_Header_h */",
  ""]

/-- The exact text of `src/apps/tvos/FlixorTV/FlixorTV-Bridging-Header.h`,
line by line. -/
def flixorTVText : List String := [
  "//",
  "//  FlixorTV-Bridging-Header.h",
  "//  FlixorTV",
  "//",
  "//  Bridging header for MPV integration",
  "//",
  "",
  "#ifndef FlixorTV_Bridging_Header_h",
  "#define FlixorTV_Bridging_Header_h",
  "",
  "// MPV Headers",
  "#import <mpv/client.h>",
  "#import <mpv/render.h>",
  "#import <mpv/render_gl.h>",
  "#import <mpv/stream_cb.h>",
  "",
  "// Metal/MetalKit for rendering",
  "#import <Metal/Metal.h>",
  "#import <MetalKit/MetalKit.h>",
  "",
  "#endif /* FlixorTV_Bridging_Header_h */"]

/-- The macOS bridging header, as classified lines. -/
def flixorMacLines : List Line := flixorMacText.map parseLine

/-- The tvOS bridging header, as classified lines. -/
def flixorTVLines : List Line := flixorTVText.map parseLine

/-- The header arguments of the `#import` directives of a file, in order. -/
def importDirectives (ls : List Line) : List String :=
  ls.filterMap fun l => match l with
    | .importD h => some h
    | _ => none

/-- The macro names of the `#define` directives of a file, in order. -/
def defineDirectives (ls : List Line) : List String :=
  ls.filterMap fun l => match l with
    | .defineD m => some m
    | _ => none

/-- The macro names of the `#ifndef` directives of a file, in order. -/
def ifndefNames (ls : List Line) : List String :=
  ls.filterMap fun l => match l with
    | .ifndefD m => some m
    | _ => none

/-- The payloads of lines that are neither preprocessor directives, comments,
nor blank: the content a file contributes as declarations or definitions. -/
def otherContent (ls : List Line) : List String :=
  ls.filterMap fun l => match l with
    | .otherL s => some s
    | _ => none

/-- The observable state of one translation unit while the preprocessor runs.
`defined` holds the macro names defined so far, `imports` the headers made
visible so far (each recorded once, following the include-once semantics of
`#import`), and `decls` the declarations contributed by non-directive content.
The remaining fields stand for the surrounding system: files persisted, wire
messages sent, and command-line interface surface — preprocessor directives
never touch them, and keeping them in the state lets frame claims be stated. -/
structure TUState where
  defined : List String
  imports : List String
  decls : List String
  persisted : List String
  wireMsgs : List String
  cliSurface : List String
  deriving DecidableEq

/-- The translation-unit state before anything has been processed. -/
def emptyTU : TUState := ⟨[], [], [], [], [], []⟩

/-- Record a header as visible, once: `#import` includes a header only if it
has not been included before in the same translation unit. -/
def addImport (xs : List String) (h : String) : List String :=
  if h ∈ xs then xs else xs ++ [h]

/-- One step of the preprocessor on a classified line. `stk` is the stack of
open conditionals (`true` when that `#ifndef` evaluated taken); a line has an
effect only when every enclosing conditional is taken. -/
def processLine (st : TUState) (stk : List Bool) : Line → TUState × List Bool
  | .commentL _ => (st, stk)
  | .blankL => (st, stk)
  | .ifndefD m => (st, (if m ∈ st.defined then false else true) :: stk)
  | .endifD _ => (st, stk.tail)
  | .defineD m =>
      (if stk.all (fun b => b) then { st with defined := m :: st.defined } else st, stk)
  | .importD h =>
      (if stk.all (fun b => b) then { st with imports := addImport st.imports h } else st, stk)
  | .otherL s =>
      (if stk.all (fun b => b) then { st with decls := st.decls ++ [s] } else st, stk)

/-- Process a file's lines in order, threading the state and the
conditional stack. -/
def processLines (ls : List Line) (st : TUState) (stk : List Bool) : TUState × List Bool :=
  match ls with
  | [] => (st, stk)
  | l :: rest =>
      let p := processLine st stk l
      processLines rest p.1 p.2

/-- Process a whole header file in a translation unit. -/
def processFile (ls : List Line) (st : TUState) : TUState :=
  (processLines ls st []).1

/-- Error-flagging variant of `processLines`: it reports the two ways a file's
conditional structure can be malformed — an `#endif` with no matching open
conditional, and a conditional still open at end of file. -/
def processLinesE (ls : List Line) (st : TUState) (stk : List Bool) : Except String TUState :=
  match ls with
  | [] => match stk with
    | [] => .ok st
    | _ :: _ => .error "unterminated conditional at end of file"
  | l :: rest =>
      match l, stk with
      | .endifD _, [] => .error "#endif without matching #ifndef"
      | _, _ =>
          let p := processLine st stk l
          processLinesE rest p.1 p.2

/-- The bridging header a compilation chooses: `false` is the macOS header,
`true` the tvOS header. -/
def fileOf (b : Bool) : List Line :=
  if b then flixorTVLines else flixorMacLines

/-- Process a sequence of bridging-header inclusions (any order, any
multiplicity) in one translation unit, stopping at the first error. -/
def processSeqE (bs : List Bool) (st : TUState) : Except String TUState :=
  match bs with
  | [] => .ok st
  | b :: rest =>
      match processLinesE (fileOf b) st [] with
      | .error e => .error e
      | .ok st2 => processSeqE rest st2

/-- A compilation in progress: the lines still to process, its private
translation-unit state, and its conditional stack. -/
def TUJob := List Line × TUState × List Bool

/-- Advance one compilation by one line (no effect when it is finished). -/
def stepTU : TUJob → TUJob
  | ([], st, stk) => ([], st, stk)
  | (l :: ls, st, stk) =>
      let p := processLine st stk l
      (ls, p.1, p.2)

/-- Advance one compilation by `n` lines. -/
def stepTUn : Nat → TUJob → TUJob
  | 0, a => a
  | n + 1, a => stepTUn n (stepTU a)

/-- Run two compilations under an interleaving schedule: `true` advances the
first compilation by one line, `false` the second. -/
def runPair (sched : List Bool) (a b : TUJob) : TUJob × TUJob :=
  match sched with
  | [] => (a, b)
  | true :: s => runPair s (stepTU a) b
  | false :: s => runPair s a (stepTU b)

/-- The macOS header's lines classify as six leading comments, the include
guard, a comment, the four mpv imports, and the closing `#endif`. -/
lemma flixorMacLines_eq : flixorMacLines = [
  .commentL "//",
  .commentL "//  FlixorMac-Bridging-Header.h",
  .commentL "//  FlixorMac",
  .commentL "//",
  .commentL "//  Bridging header for MPV integration",
  .commentL "//",
  .blankL,
  .ifndefD "FlixorMac_Bridging_Header_h",
  .defineD "FlixorMac_Bridging_Header_h",
  .blankL,
  .commentL "// MPV Headers",
  .importD "<mpv/client.h>",
  .importD "<mpv/render.h>",
  .importD "<mpv/render_gl.h>",
  .importD "<mpv/stream_cb.h>",
  .blankL,
  .endifD "#endif /* FlixorMac_Bridging_Header_h */",
  .blankL] := by decide

/-- The tvOS header's lines classify as six leading comments, the include
guard, a comment, the four mpv imports, a comment, the two Metal imports,
and the closing `#endif`. -/
lemma flixorTVLines_eq : flixorTVLines = [
  .commentL "//",
  .commentL "//  FlixorTV-Bridging-Header.h",
  .commentL "//  FlixorTV",
  .commentL "//",
  .commentL "//  Bridging header for MPV integration",
  .commentL "//",
  .blankL,
  .ifndefD "FlixorTV_Bridging_Header_h",
  .defineD "FlixorTV_Bridging_Header_h",
  .blankL,
  .commentL "// MPV Headers",
  .importD "<mpv/client.h>",
  .importD "<mpv/render.h>",
  .importD "<mpv/render_gl.h>",
  .importD "<mpv/stream_cb.h>",
  .blankL,
  .commentL "// Metal/MetalKit for rendering",
  .importD "<Metal/Metal.h>",
  .importD "<MetalKit/MetalKit.h>",
  .blankL,
  .endifD "#endif /* FlixorTV_Bridging_Header_h */"] := by decide

/-- Membership after an include-once `#import` step. -/
lemma mem_addImport (xs : List String) (h x : String) :
    x ∈ addImport xs h ↔ x ∈ xs ∨ x = h := by
  unfold addImport
  by_cases hm : h ∈ xs
  · rw [if_pos hm]
    constructor
    · exact Or.inl
    · rintro (hx | rfl)
      · exact hx
      · exact hm
  · rw [if_neg hm]
    simp [List.mem_append]

/-- Preprocessor steps never touch the persisted-file, wire, or
command-line components of the state, whatever the lines are. -/
lemma processLines_frame (ls : List Line) : ∀ (st : TUState) (stk : List Bool),
    (processLines ls st stk).1.persisted = st.persisted ∧
    (processLines ls st stk).1.wireMsgs = st.wireMsgs ∧
    (processLines ls st stk).1.cliSurface = st.cliSurface := by
  induction ls with
  | nil => intro st stk; exact ⟨rfl, rfl, rfl⟩
  | cons l rest ih =>
      intro st stk
      have step : (processLine st stk l).1.persisted = st.persisted ∧
          (processLine st stk l).1.wireMsgs = st.wireMsgs ∧
          (processLine st stk l).1.cliSurface = st.cliSurface := by
        cases l <;> simp [processLine] <;> split <;> simp
      have := ih (processLine st stk l).1 (processLine st stk l).2
      simp only [processLines]
      exact ⟨this.1.trans step.1, this.2.1.trans step.2.1, this.2.2.trans step.2.2⟩

/-- When its guard macro is already defined, processing the macOS header
changes nothing. -/
lemma processFile_mac_skip (st : TUState)
    (h : "FlixorMac_Bridging_Header_h" ∈ st.defined) :
    processFile flixorMacLines st = st := by
  rw [processFile, flixorMacLines_eq]
  simp [processLines, processLine, h]

/-- When its guard macro is already defined, processing the tvOS header
changes nothing. -/
lemma processFile_tv_skip (st : TUState)
    (h : "FlixorTV_Bridging_Header_h" ∈ st.defined) :
    processFile flixorTVLines st = st := by
  rw [processFile, flixorTVLines_eq]
  simp [processLines, processLine, h]

/-- When its guard macro is not yet defined, processing the macOS header
defines the guard and makes the four mpv headers visible, and does nothing
else. -/
lemma processFile_mac_run (st : TUState)
    (h : "FlixorMac_Bridging_Header_h" ∉ st.defined) :
    processFile flixorMacLines st =
      { st with
        defined := "FlixorMac_Bridging_Header_h" :: st.defined,
        imports := addImport (addImport (addImport (addImport st.imports
          "<mpv/client.h>") "<mpv/render.h>") "<mpv/render_gl.h>") "<mpv/stream_cb.h>" } := by
  rw [processFile, flixorMacLines_eq]
  simp [processLines, processLine, h]

/-- When its guard macro is not yet defined, processing the tvOS header
defines the guard and makes the four mpv headers and the two Metal headers
visible, and does nothing else. -/
lemma processFile_tv_run (st : TUState)
    (h : "FlixorTV_Bridging_Header_h" ∉ st.defined) :
    processFile flixorTVLines st =
      { st with
        defined := "FlixorTV_Bridging_Header_h" :: st.defined,
        imports := addImport (addImport (addImport (addImport (addImport (addImport st.imports
          "<mpv/client.h>") "<mpv/render.h>") "<mpv/render_gl.h>") "<mpv/stream_cb.h>")
          "<Metal/Metal.h>") "<MetalKit/MetalKit.h>" } := by
  rw [processFile, flixorTVLines_eq]
  simp [processLines, processLine, h]

/-- Processing the macOS header always leaves its guard macro defined. -/
lemma processFile_mac_defines (st : TUState) :
    "FlixorMac_Bridging_Header_h" ∈ (processFile flixorMacLines st).defined := by
  by_cases h : "FlixorMac_Bridging_Header_h" ∈ st.defined
  · rw [processFile_mac_skip st h]; exact h
  · rw [processFile_mac_run st h]; exact List.mem_cons_self _ _

/-- Processing the tvOS header always leaves its guard macro defined. -/
lemma processFile_tv_defines (st : TUState) :
    "FlixorTV_Bridging_Header_h" ∈ (processFile flixorTVLines st).defined := by
  by_cases h : "FlixorTV_Bridging_Header_h" ∈ st.defined
  · rw [processFile_tv_skip st h]; exact h
  · rw [processFile_tv_run st h]; exact List.mem_cons_self _ _

/-- The error-flagging pass accepts the macOS header from every state and
agrees with the total semantics. -/
lemma processLinesE_mac_ok (st : TUState) :
    processLinesE flixorMacLines st [] = .ok (processFile flixorMacLines st) := by
  rw [processFile, flixorMacLines_eq]
  by_cases h : "FlixorMac_Bridging_Header_h" ∈ st.defined <;>
    simp [processLinesE, processLines, processLine, h]

/-- The error-flagging pass accepts the tvOS header from every state and
agrees with the total semantics. -/
lemma processLinesE_tv_ok (st : TUState) :
    processLinesE flixorTVLines st [] = .ok (processFile flixorTVLines st) := by
  rw [processFile, flixorTVLines_eq]
  by_cases h : "FlixorTV_Bridging_Header_h" ∈ st.defined <;>
    simp [processLinesE, processLines, processLine, h]

/-- Number of schedule slots given to the first compilation. -/
def trueSteps : List Bool → Nat
  | [] => 0
  | true :: s => trueSteps s + 1
  | false :: s => trueSteps s

/-- Number of schedule slots given to the second compilation. -/
def falseSteps : List Bool → Nat
  | [] => 0
  | true :: s => falseSteps s
  | false :: s => falseSteps s + 1

/-- Interleaving two compilations never makes them interact: each ends up
exactly where running its own steps alone puts it, whatever the schedule. -/
lemma runPair_eq (sched : List Bool) : ∀ a b : TUJob,
    runPair sched a b = (stepTUn (trueSteps sched) a, stepTUn (falseSteps sched) b) := by
  induction sched with
  | nil => intro a b; rfl
  | cons c s ih =>
      intro a b
      cases c
      · rw [show runPair (false :: s) a b = runPair s a (stepTU b) from rfl, ih]
        rfl
      · rw [show runPair (true :: s) a b = runPair s (stepTU a) b from rfl, ih]
        rfl

/-- Whether an imported header path lies in the mpv library. -/
def isMpvHeader (h : String) : Bool :=
  List.isPrefixOf "<mpv/".data h.data

/-- The four mpv API headers named by the sources. -/
def mpvHeaderList : List String :=
  ["<mpv/client.h>", "<mpv/render.h>", "<mpv/render_gl.h>", "<mpv/stream_cb.h>"]

/-- A line a bridging header may contain without contributing anything of its
own: a comment, a blank line, a header import, or a line of the include guard
whose macro is `g`. -/
def lineAdmissible (g : String) : Line → Bool
  | .commentL _ => true
  | .blankL => true
  | .importD _ => true
  | .ifndefD m => m = g
  | .defineD m => m = g
  | .endifD _ => true
  | .otherL _ => false

/-- The macOS header's import directives, computed. -/
lemma importDirectives_mac_eq :
    importDirectives flixorMacLines = mpvHeaderList := by decide

/-- The tvOS header's import directives, computed. -/
lemma importDirectives_tv_eq :
    importDirectives flixorTVLines =
      mpvHeaderList ++ ["<Metal/Metal.h>", "<MetalKit/MetalKit.h>"] := by decide

/-- C1: the claim that BOTH bridging headers import Metal and MetalKit is
false — the macOS header imports no Metal or MetalKit header at all. -/
theorem mac_header_lacks_metal_counterexample :
    ¬ (("<Metal/Metal.h>" ∈ importDirectives flixorMacLines ∧
        "<MetalKit/MetalKit.h>" ∈ importDirectives flixorMacLines) ∧
       ("<Metal/Metal.h>" ∈ importDirectives flixorTVLines ∧
        "<MetalKit/MetalKit.h>" ∈ importDirectives flixorTVLines)) := by decide

/-- C1 (amended): both headers import the mpv headers; the tvOS header also
imports Metal and MetalKit, while the macOS header imports neither. -/
theorem metal_visibility_per_platform :
    ("<mpv/client.h>" ∈ importDirectives flixorMacLines ∧
     "<mpv/render.h>" ∈ importDirectives flixorMacLines ∧
     "<mpv/render_gl.h>" ∈ importDirectives flixorMacLines ∧
     "<mpv/stream_cb.h>" ∈ importDirectives flixorMacLines ∧
     "<Metal/Metal.h>" ∉ importDirectives flixorMacLines ∧
     "<MetalKit/MetalKit.h>" ∉ importDirectives flixorMacLines) ∧
    ("<mpv/client.h>" ∈ importDirectives flixorTVLines ∧
     "<mpv/render.h>" ∈ importDirectives flixorTVLines ∧
     "<mpv/render_gl.h>" ∈ importDirectives flixorTVLines ∧
     "<mpv/stream_cb.h>" ∈ importDirectives flixorTVLines ∧
     "<Metal/Metal.h>" ∈ importDirectives flixorTVLines ∧
     "<MetalKit/MetalKit.h>" ∈ importDirectives flixorTVLines) := by decide

/-- C2: in each bridging header, the mpv headers imported are exactly
client, render, render_gl and stream_cb — none missing, no other mpv
header imported. -/
theorem mpv_imports_exactly_four :
    (importDirectives flixorMacLines).filter isMpvHeader = mpvHeaderList ∧
    (importDirectives flixorTVLines).filter isMpvHeader = mpvHeaderList := by decide

/-- C3: every line of either bridging header is a comment, a blank line, a
header import, or a line of that file's include guard; neither file contains
any other content, and the only macro either defines is its guard macro. -/
theorem headers_only_imports_comments_guard :
    flixorMacLines.all (lineAdmissible "FlixorMac_Bridging_Header_h") = true ∧
    flixorTVLines.all (lineAdmissible "FlixorTV_Bridging_Header_h") = true ∧
    defineDirectives flixorMacLines = ["FlixorMac_Bridging_Header_h"] ∧
    defineDirectives flixorTVLines = ["FlixorTV_Bridging_Header_h"] := by decide

/-- C4: the bridging headers contribute no declarations of their own, and
processing either one leaves the translation unit's declarations exactly as
they were — only macro and header visibility can change. -/
theorem headers_declare_nothing :
    otherContent flixorMacLines = [] ∧ otherContent flixorTVLines = [] ∧
    ∀ st : TUState, (processFile flixorMacLines st).decls = st.decls ∧
      (processFile flixorTVLines st).decls = st.decls := by
  refine ⟨by decide, by decide, fun st => ⟨?_, ?_⟩⟩
  · by_cases h : "FlixorMac_Bridging_Header_h" ∈ st.defined
    · rw [processFile_mac_skip st h]
    · rw [processFile_mac_run st h]
  · by_cases h : "FlixorTV_Bridging_Header_h" ∈ st.defined
    · rw [processFile_tv_skip st h]
    · rw [processFile_tv_run st h]

/-- Witness for C4 at the empty translation unit. -/
theorem headers_declare_nothing_witness :
    (processFile flixorMacLines emptyTU).decls = emptyTU.decls :=
  (headers_declare_nothing.2.2 emptyTU).1

/-- C5: processing the bridging headers never takes an error branch — for
every inclusion sequence (any order and multiplicity of the two headers)
and every starting state, the error-flagging pass succeeds. -/
theorem header_processing_never_errors :
    ∀ (bs : List Bool) (st : TUState), (processSeqE bs st).isOk = true := by
  intro bs
  induction bs with
  | nil => intro st; rfl
  | cons b rest ih =>
      intro st
      cases b
      · simp only [processSeqE, fileOf, Bool.false_eq_true, if_false,
          processLinesE_mac_ok st]
        exact ih _
      · simp only [processSeqE, fileOf, if_true, processLinesE_tv_ok st]
        exact ih _

/-- Witness for C5 on a concrete inclusion sequence. -/
theorem header_processing_never_errors_witness :
    (processSeqE [false, true, false, true] emptyTU).isOk = true :=
  header_processing_never_errors [false, true, false, true] emptyTU

/-- C6: processing either bridging header leaves the surrounding system
untouched apart from header/macro visibility — the persisted files, the
wire messages, and the command-line surface of the state are unchanged. -/
theorem header_processing_frame :
    ∀ st : TUState,
      ((processFile flixorMacLines st).persisted = st.persisted ∧
       (processFile flixorMacLines st).wireMsgs = st.wireMsgs ∧
       (processFile flixorMacLines st).cliSurface = st.cliSurface) ∧
      ((processFile flixorTVLines st).persisted = st.persisted ∧
       (processFile flixorTVLines st).wireMsgs = st.wireMsgs ∧
       (processFile flixorTVLines st).cliSurface = st.cliSurface) :=
  fun st => ⟨processLines_frame flixorMacLines st [], processLines_frame flixorTVLines st []⟩

/-- Witness for C6 at the empty translation unit. -/
theorem header_processing_frame_witness :
    (processFile flixorMacLines emptyTU).persisted = emptyTU.persisted :=
  (header_processing_frame emptyTU).1.1

/-- C7: the headers introduce no shared state (no declarations at all), and
under every interleaving schedule two compilations processing the two
headers evolve independently: each lands exactly where running its own
steps alone would put it. -/
theorem interleaved_compilations_independent :
    otherContent flixorMacLines = [] ∧ otherContent flixorTVLines = [] ∧
    ∀ (sched : List Bool) (stA stB : TUState),
      runPair sched (flixorMacLines, stA, []) (flixorTVLines, stB, []) =
        (stepTUn (trueSteps sched) (flixorMacLines, stA, []),
         stepTUn (falseSteps sched) (flixorTVLines, stB, [])) :=
  ⟨by decide, by decide, fun sched stA stB =>
    runPair_eq sched (flixorMacLines, stA, []) (flixorTVLines, stB, [])⟩

/-- Witness for C7 on a concrete schedule. -/
theorem interleaved_compilations_independent_witness :
    runPair [true, false, true] (flixorMacLines, emptyTU, []) (flixorTVLines, emptyTU, []) =
      (stepTUn (trueSteps [true, false, true]) (flixorMacLines, emptyTU, []),
       stepTUn (falseSteps [true, false, true]) (flixorTVLines, emptyTU, [])) :=
  interleaved_compilations_independent.2.2 [true, false, true] emptyTU emptyTU

/-- C8: including either bridging header is idempotent — from every
translation-unit state, processing the same header a second time leaves the
state (defined macros and visible headers included) exactly as after the
first, because the include guard skips the body. -/
theorem header_inclusion_idempotent :
    ∀ st : TUState,
      processFile flixorMacLines (processFile flixorMacLines st) =
        processFile flixorMacLines st ∧
      processFile flixorTVLines (processFile flixorTVLines st) =
        processFile flixorTVLines st :=
  fun st => ⟨processFile_mac_skip _ (processFile_mac_defines st),
             processFile_tv_skip _ (processFile_tv_defines st)⟩

/-- Witness for C8 at the empty translation unit. -/
theorem header_inclusion_idempotent_witness :
    processFile flixorMacLines (processFile flixorMacLines emptyTU) =
      processFile flixorMacLines emptyTU :=
  (header_inclusion_idempotent emptyTU).1

/-- C9: the two headers import the same four mpv headers in the same order,
and the tvOS import list extends the macOS one by exactly Metal and
MetalKit, in that order. -/
theorem mac_tv_import_lists_refinement :
    importDirectives flixorMacLines =
      ["<mpv/client.h>", "<mpv/render.h>", "<mpv/render_gl.h>", "<mpv/stream_cb.h>"] ∧
    importDirectives flixorTVLines =
      importDirectives flixorMacLines ++ ["<Metal/Metal.h>", "<MetalKit/MetalKit.h>"] := by decide

/-- Headers made visible by a first-time run of the macOS header. -/
lemma processFile_mac_run_imports (st : TUState)
    (h : "FlixorMac_Bridging_Header_h" ∉ st.defined) :
    (processFile flixorMacLines st).imports =
      addImport (addImport (addImport (addImport st.imports
        "<mpv/client.h>") "<mpv/render.h>") "<mpv/render_gl.h>") "<mpv/stream_cb.h>" := by
  rw [processFile_mac_run st h]

/-- Headers made visible by a first-time run of the tvOS header. -/
lemma processFile_tv_run_imports (st : TUState)
    (h : "FlixorTV_Bridging_Header_h" ∉ st.defined) :
    (processFile flixorTVLines st).imports =
      addImport (addImport (addImport (addImport (addImport (addImport st.imports
        "<mpv/client.h>") "<mpv/render.h>") "<mpv/render_gl.h>") "<mpv/stream_cb.h>")
        "<Metal/Metal.h>") "<MetalKit/MetalKit.h>" := by
  rw [processFile_tv_run st h]

/-- Macros defined by a first-time run of the macOS header. -/
lemma processFile_mac_run_defined (st : TUState)
    (h : "FlixorMac_Bridging_Header_h" ∉ st.defined) :
    (processFile flixorMacLines st).defined =
      "FlixorMac_Bridging_Header_h" :: st.defined := by
  rw [processFile_mac_run st h]

/-- Macros defined by a first-time run of the tvOS header. -/
lemma processFile_tv_run_defined (st : TUState)
    (h : "FlixorTV_Bridging_Header_h" ∉ st.defined) :
    (processFile flixorTVLines st).defined =
      "FlixorTV_Bridging_Header_h" :: st.defined := by
  rw [processFile_tv_run st h]

/-- C10: the two include-guard macros are distinct, so a translation unit in
which neither guard is yet defined ends up, after processing both headers in
either order, with exactly its previous headers plus the union of the two
files' import lists visible. -/
theorem distinct_guards_union_imports :
    ifndefNames flixorMacLines = ["FlixorMac_Bridging_Header_h"] ∧
    ifndefNames flixorTVLines = ["FlixorTV_Bridging_Header_h"] ∧
    ("FlixorMac_Bridging_Header_h" : String) ≠ "FlixorTV_Bridging_Header_h" ∧
    ∀ st : TUState, "FlixorMac_Bridging_Header_h" ∉ st.defined →
      "FlixorTV_Bridging_Header_h" ∉ st.defined → ∀ x : String,
      (x ∈ (processFile flixorTVLines (processFile flixorMacLines st)).imports ↔
        x ∈ st.imports ∨ x ∈ importDirectives flixorMacLines ∨
          x ∈ importDirectives flixorTVLines) ∧
      (x ∈ (processFile flixorMacLines (processFile flixorTVLines st)).imports ↔
        x ∈ st.imports ∨ x ∈ importDirectives flixorMacLines ∨
          x ∈ importDirectives flixorTVLines) := by
  refine ⟨by decide, by decide, by decide, ?_⟩
  intro st h1 h2 x
  have hne1 : ¬ (("FlixorTV_Bridging_Header_h" : String) = "FlixorMac_Bridging_Header_h") := by
    decide
  have hne2 : ¬ (("FlixorMac_Bridging_Header_h" : String) = "FlixorTV_Bridging_Header_h") := by
    decide
  constructor
  · have h2' : "FlixorTV_Bridging_Header_h" ∉ (processFile flixorMacLines st).defined := by
      rw [processFile_mac_run_defined st h1]
      simp [List.mem_cons, hne1, h2]
    rw [processFile_tv_run_imports _ h2', processFile_mac_run_imports st h1]
    simp only [importDirectives_mac_eq, importDirectives_tv_eq, mpvHeaderList,
      mem_addImport, List.mem_cons, List.mem_append, List.not_mem_nil]
    tauto
  · have h1' : "FlixorMac_Bridging_Header_h" ∉ (processFile flixorTVLines st).defined := by
      rw [processFile_tv_run_defined st h2]
      simp [List.mem_cons, hne2, h1]
    rw [processFile_mac_run_imports _ h1', processFile_tv_run_imports st h2]
    simp only [importDirectives_mac_eq, importDirectives_tv_eq, mpvHeaderList,
      mem_addImport, List.mem_cons, List.mem_append, List.not_mem_nil]
    tauto

/-- Witness for C10 at the empty translation unit and a concrete header. -/
theorem distinct_guards_union_imports_witness :
    ("FlixorMac_Bridging_Header_h" ∉ emptyTU.defined) ∧
    ("FlixorTV_Bridging_Header_h" ∉ emptyTU.defined) ∧
    ("<Metal/Metal.h>" ∈ (processFile flixorTVLines (processFile flixorMacLines emptyTU)).imports ↔
      "<Metal/Metal.h>" ∈ emptyTU.imports ∨
        "<Metal/Metal.h>" ∈ importDirectives flixorMacLines ∨
        "<Metal/Metal.h>" ∈ importDirectives flixorTVLines) :=
  ⟨by decide, by decide,
    (distinct_guards_union_imports.2.2.2 emptyTU (by decide) (by decide) "<Metal/Metal.h>").1⟩

end Netflow

